import Mathlib

/-!
# Verification of the YouTube transcript cache/fetch server

Shallow embedding of `youtube_transcript_server.py`:
identifier extraction (`extract_video_id`, over a model of CPython
`urllib.parse.urlparse` / `parse_qs` for ASCII inputs), the transcript
cache with its on-disk mirror (`TranscriptCache.add`, `_save_to_disk`,
`load_from_disk`), the metadata fetcher (`get_video_info`), the
formatting-and-caching pipeline (`get_transcript`) and the
`download_transcript` tool.  External collaborators (the HTTP client,
the transcript provider, the filesystem) are passed in as explicit
parameters or state.
-/

namespace YT

/-- Split a character list at the first character satisfying `p`:
returns `(before, rest)` where `rest` is empty (no match) or starts with
the first matching character.  Models Python `str.find` + slicing. -/
def breakP (p : Char → Bool) : List Char → List Char × List Char
  | [] => ([], [])
  | c :: l =>
    if p c then ([], c :: l)
    else
      let r := breakP p l
      (c :: r.1, r.2)

@[simp] theorem breakP_nil (p : Char → Bool) : breakP p [] = ([], []) := rfl

theorem breakP_cons (p : Char → Bool) (c : Char) (l : List Char) :
    breakP p (c :: l) =
      if p c then ([], c :: l) else (c :: (breakP p l).1, (breakP p l).2) := by
  simp only [breakP]

/-- If no character of `l` matches, `breakP` consumes the whole list. -/
theorem breakP_no_match {p : Char → Bool} {l : List Char}
    (h : ∀ c ∈ l, p c = false) : breakP p l = (l, []) := by
  induction l with
  | nil => rfl
  | cons c t ih =>
    have hc : p c = false := h c (List.mem_cons_self c t)
    rw [breakP_cons, hc]
    simp only [Bool.false_eq_true, if_false]
    rw [ih fun d hd => h d (List.mem_cons_of_mem c hd)]

/-- Characters CPython `urlsplit` accepts inside a scheme. -/
def schemeCharB (c : Char) : Bool :=
  c.isAlphanum || c == '+' || c == '-' || c == '.'

/-- The character class `[a-zA-Z0-9_-]` of the video-id regular expression. -/
def isIdChar (c : Char) : Bool :=
  c.isAlphanum || c == '_' || c == '-'

/-- CPython `urlsplit` removes ASCII tab, CR and LF before parsing. -/
def scrub (l : List Char) : List Char :=
  l.filter fun c => !(c == '\t' || c == '\r' || c == '\n')

/-- CPython `urlsplit` first strips leading WHATWG C0-control and space
characters (code points 0x00–0x20) from the URL. -/
def lstripC0 (l : List Char) : List Char :=
  l.dropWhile fun c => c.toNat ≤ 32

/-- Scheme detection of CPython `urlsplit`: a leading run of scheme
characters, starting with an ASCII letter, terminated by `:`.
Returns `(scheme lower-cased, rest)`; `([], input)` when absent. -/
def splitScheme (l : List Char) : List Char × List Char :=
  match breakP (fun c => c == ':') l with
  | (pre, _ :: rest) =>
    match pre with
    | [] => ([], l)
    | c0 :: _ =>
      if c0.isAlpha && pre.all schemeCharB then (pre.map Char.toLower, rest)
      else ([], l)
  | (_, []) => ([], l)

/-- Netloc detection: after `//`, up to the first `/`, `?` or `#`. -/
def splitNetloc (l : List Char) : List Char × List Char :=
  match l with
  | '/' :: '/' :: rest =>
    let r := breakP (fun c => c == '/' || c == '?' || c == '#') rest
    (r.1, r.2)
  | _ => ([], l)

/-- Fragment split at the first `#` (the `#` itself is dropped). -/
def splitFragment (l : List Char) : List Char × List Char :=
  match breakP (fun c => c == '#') l with
  | (pre, _ :: rest) => (pre, rest)
  | (pre, []) => (pre, [])

/-- Query split at the first `?` (the `?` itself is dropped). -/
def splitQuery (l : List Char) : List Char × List Char :=
  match breakP (fun c => c == '?') l with
  | (pre, _ :: rest) => (pre, rest)
  | (pre, []) => (pre, [])

/-- Split a list at its LAST occurrence of `c`:
`some (a, b)` with `l = a ++ c :: b` and `c ∉ b`, or `none`. -/
def splitAtLastChar (c : Char) (l : List Char) : Option (List Char × List Char) :=
  match breakP (fun d => d == c) l.reverse with
  | (rb, _ :: ra) => some (ra.reverse, rb.reverse)
  | (_, []) => none

/-- CPython `_splitparams`: split `;params` off the last path segment.
Only called when the path contains `;`. -/
def splitParams (p : List Char) : List Char × List Char :=
  if p.any (fun c => c == ';') then
    if p.any (fun c => c == '/') then
      match splitAtLastChar '/' p with
      | some (a, b) =>
        match breakP (fun c => c == ';') b with
        | (pre, _ :: rest) => (a ++ '/' :: pre, rest)
        | (_, []) => (p, [])
      | none => (p, [])
    else
      match breakP (fun c => c == ';') p with
      | (pre, _ :: rest) => (pre, rest)
      | (_, []) => (p, [])
  else (p, [])

/-- Schemes for which CPython `urlparse` splits params off the path. -/
def usesParamsList : List (List Char) :=
  ["".data, "ftp".data, "hdl".data, "prospero".data, "http".data, "imap".data,
   "https".data, "shttp".data, "rtsp".data, "rtspu".data, "sip".data,
   "sips".data, "mms".data, "sftp".data, "tel".data]

/-- Result of `urllib.parse.urlparse`. -/
structure UrlParts where
  scheme : List Char
  netloc : List Char
  path : List Char
  params : List Char
  query : List Char
  fragment : List Char
  deriving Repr, DecidableEq

/-- Last stage of `urlparse`: assemble the result. -/
def urlparse5 (scheme netloc fragment query : List Char)
    (pp : List Char × List Char) : UrlParts :=
  ⟨scheme, netloc, pp.1, pp.2, query, fragment⟩

/-- Params are split off the path only for schemes in `uses_params`. -/
def urlparse4 (scheme netloc fragment : List Char)
    (q : List Char × List Char) : UrlParts :=
  urlparse5 scheme netloc fragment q.2
    (if scheme ∈ usesParamsList then splitParams q.1 else (q.1, []))

def urlparse3 (scheme netloc : List Char) (f : List Char × List Char) : UrlParts :=
  urlparse4 scheme netloc f.2 (splitQuery f.1)

def urlparse2 (scheme : List Char) (n : List Char × List Char) : UrlParts :=
  urlparse3 scheme n.1 (splitFragment n.2)

/-- `urlsplit`'s netloc bracket-balance test: a `[` without `]` (or the
converse) in the netloc raises `ValueError("Invalid IPv6 URL")`. -/
def bracketsBad (nl : List Char) : Bool :=
  (nl.contains '[' && !(nl.contains ']')) || (nl.contains ']' && !(nl.contains '['))

/-- After the scheme split: split the netloc, raise on unbalanced
brackets, and run the remaining stages. -/
def urlparse0 (s : List Char × List Char) : Except String UrlParts :=
  if bracketsBad (splitNetloc s.2).1 then Except.error "Invalid IPv6 URL"
  else Except.ok (urlparse2 s.1 (splitNetloc s.2))

/-- Model of CPython `urllib.parse.urlparse` for ASCII inputs, staged:
leading C0-control/space lstrip and tab/CR/LF removal, then scheme,
netloc (with `urlsplit`'s unbalanced-bracket `ValueError("Invalid IPv6
URL")`), fragment, query and params splitting.  `Except.error` carries
`str(e)` of the raised `ValueError`.  Not modelled: the content
validation of balanced bracketed hosts added in newer CPython (which
rejects strictly more inputs; no claim input carries balanced brackets)
and percent-normalization (none is performed by `urlparse`). -/
def urlparseL (l0 : List Char) : Except String UrlParts :=
  urlparse0 (splitScheme (scrub (lstripC0 l0)))

/-- Split a query string on `&` (Python `str.split('&')`). -/
def splitAmp : List Char → List (List Char)
  | [] => [[]]
  | c :: rest =>
    match splitAmp rest with
    | [] => [[c]]
    | h :: t => if c == '&' then [] :: h :: t else (c :: h) :: t

def isHexDigit (c : Char) : Bool :=
  c.isDigit || (('a' ≤ c && c ≤ 'f') || ('A' ≤ c && c ≤ 'F'))

def hexVal (c : Char) : Nat :=
  if c.isDigit then c.toNat - '0'.toNat
  else if 'a' ≤ c && c ≤ 'f' then c.toNat - 'a'.toNat + 10
  else c.toNat - 'A'.toNat + 10

/-- Percent-decoding of `urllib.parse.unquote`, restricted to single-byte
(ASCII) escapes; multi-byte UTF-8 escape sequences are not modelled and
never arise in the claims. -/
def unquoteL : List Char → List Char
  | '%' :: a :: b :: rest =>
    if isHexDigit a && isHexDigit b then
      Char.ofNat (hexVal a * 16 + hexVal b) :: unquoteL rest
    else '%' :: unquoteL (a :: b :: rest)
  | c :: rest => c :: unquoteL rest
  | [] => []

/-- The `+` → space replacement `parse_qsl` applies before unquoting. -/
def plusSpace (l : List Char) : List Char :=
  l.map fun c => if c == '+' then ' ' else c

/-- One `name=value` field of `parse_qsl` with `keep_blank_values=False`:
empty fields, fields without `=` and fields with an empty value are
dropped; name and value are plus-replaced and unquoted. -/
def parseField (f : List Char) : Option (List Char × List Char) :=
  if f = [] then none
  else
    match breakP (fun c => c == '=') f with
    | (name, _ :: val) =>
      if val = [] then none
      else some (unquoteL (plusSpace name), unquoteL (plusSpace val))
    | (_, []) => none

/-- Model of `urllib.parse.parse_qsl` (and the pair list underlying
`parse_qs`) with default arguments. -/
def parseQsL (q : List Char) : List (List Char × List Char) :=
  (splitAmp q).filterMap parseField

/-- `parse_qs(query).get('v', [''])[0]`: the first value bound to `v`,
or the empty string when `v` is absent. -/
def getParamV (pairs : List (List Char × List Char)) : List Char :=
  match pairs.find? (fun p => p.1 = "v".data) with
  | some p => p.2
  | none => []

/-- Python `str.strip(c)` for a single strip character. -/
def pyStripChar (c : Char) (l : List Char) : List Char :=
  ((l.dropWhile (· == c)).reverse.dropWhile (· == c)).reverse

/-- `re.match(r'^[a-zA-Z0-9_-]{11}$', url)`: eleven id-characters, or —
because `$` also matches just before a final newline — eleven
id-characters followed by a final `'\n'`. -/
def matches11 (l : List Char) : Bool :=
  (l.length == 11 && l.all isIdChar) ||
  (l.length == 12 && (l.take 11).all isIdChar && l.getLast? == some '\n')

/-- Python `pat in s` substring test. -/
def containsSub (pat l : List Char) : Bool :=
  pat.isPrefixOf l ||
  match l with
  | [] => false
  | _ :: rest => containsSub pat rest

/-- `extract_video_id`: the identifier extractor of the server.
Returns `Except.error msg` where the source raises `ValueError(msg)`. -/
def extract_video_id (url : String) : Except String String :=
  if containsSub "youtu.be".data url.data then
    match urlparseL url.data with
    | .error e => Except.error e
    | .ok pu => Except.ok (String.mk (pyStripChar '/' pu.path))
  else
    match urlparseL url.data with
    | .error e => Except.error e
    | .ok pu =>
      if pu.netloc = "youtube.com".data ∨ pu.netloc = "www.youtube.com".data ∨
          pu.netloc = "m.youtube.com".data then
        Except.ok (String.mk (getParamV (parseQsL pu.query)))
      else if matches11 url.data then
        Except.ok url
      else
        Except.error ("Could not extract YouTube video ID from " ++ url)

instance {ε α : Type} [DecidableEq ε] [DecidableEq α] : DecidableEq (Except ε α) := fun a b =>
  match a, b with
  | .ok x, .ok y => decidable_of_iff (x = y) (by simp)
  | .error x, .error y => decidable_of_iff (x = y) (by simp)
  | .ok _, .error _ => isFalse (by simp)
  | .error _, .ok _ => isFalse (by simp)

/-! ## Data model: records, the cache and its on-disk mirror -/

/-- `VideoInfo` dataclass. -/
structure VideoInfo where
  video_id : String
  title : String
  channel : String
  deriving Repr, DecidableEq

/-- `TranscriptInfo` dataclass. -/
structure TranscriptInfo where
  video_id : String
  video_info : Option VideoInfo := none
  text : Option String := none
  deriving Repr, DecidableEq

/-- Python-dict style association list update: replace the first binding
of the key in place, else append at the end. -/
def assocSet {β : Type} : List (String × β) → String → β → List (String × β)
  | [], k, v => [(k, v)]
  | (k', v') :: rest, k, v =>
    if k' = k then (k, v) :: rest else (k', v') :: assocSet rest k v

/-- Association-list lookup (`dict.get`). -/
def assocGet {β : Type} (l : List (String × β)) (k : String) : Option β :=
  (l.find? fun p => p.1 == k).map (·.2)

/-- Content of a file in the cache directory, abstracted: the bytes of a
formatted-transcript text artifact, the JSON object `json.dump` writes
for a metadata artifact (fields optional to cover corrupted-but-object
artifacts), bytes that fail JSON parsing, and bytes parsing to a
non-object JSON value. -/
inductive FileContent where
  | textC (s : String)
  | metaC (title channel : Option String)
  | corruptC
  | nonObjC
  deriving Repr, DecidableEq

/-- The cache directory: file name to content, in creation order. -/
abbrev Disk := List (String × FileContent)

abbrev Cache := List (String × TranscriptInfo)

/-- `open(path).read()` on an artifact.  Only text artifacts are ever
read as text by the server; other contents are mapped to `""`. -/
def readText : FileContent → String
  | .textC s => s
  | _ => ""

/-- Outcome of `json.load` followed by `meta.get(...)`. -/
inductive MetaParse where
  | objV (title channel : Option String)
  | decodeErr
  | attrErr

/-- `json.load` on a metadata artifact: a JSON object yields its fields;
unparsable bytes raise `JSONDecodeError`; a parsable non-object makes the
subsequent `meta.get` raise `AttributeError`.  A text artifact fed to the
JSON parser is treated as unparsable (never exercised). -/
def parseMeta : FileContent → MetaParse
  | .metaC t c => .objV t c
  | .corruptC => .decodeErr
  | .nonObjC => .attrErr
  | .textC _ => .decodeErr

/-- `TranscriptCache._save_to_disk`: write the text artifact when the
record's text is truthy (present and non-empty), and additionally the
metadata artifact when a `VideoInfo` is present. -/
def saveToDisk (info : TranscriptInfo) (d : Disk) : Disk :=
  match info.text with
  | some t =>
    if t = "" then d
    else
      let d1 := assocSet d (info.video_id ++ ".txt") (.textC t)
      match info.video_info with
      | some vi =>
          assocSet d1 (info.video_id ++ "_meta.json")
            (.metaC (some vi.title) (some vi.channel))
      | none => d1
  | none => d

/-- In-memory cache plus the cache directory. -/
structure ServerState where
  cache : Cache
  disk : Disk
  deriving Repr, DecidableEq

/-- `TranscriptCache.add`: store in the in-memory map, then persist. -/
def cacheAdd (info : TranscriptInfo) (st : ServerState) : ServerState :=
  ⟨assocSet st.cache info.video_id info, saveToDisk info st.disk⟩

/-- `filename.replace(".txt", "")`: delete every occurrence of `.txt`. -/
def stripTxtAll : List Char → List Char
  | '.' :: 't' :: 'x' :: 't' :: rest => stripTxtAll rest
  | c :: rest => c :: stripTxtAll rest
  | [] => []

/-- Python `str.endswith`: the suffix test, computed on reverses. -/
def endsWithL (suf l : List Char) : Bool :=
  suf.reverse.isPrefixOf l.reverse

/-- One iteration of the `load_from_disk` loop on a directory entry.
`AttributeError` from `meta.get` on a non-object is not caught by the
`except (json.JSONDecodeError, KeyError)` clause and aborts the load. -/
def loadOne (d : Disk) (cache : Cache) : String × FileContent → Except Unit Cache
  | (name, fc) =>
  if endsWithL ".txt".data name.data &&
      !(endsWithL "_meta.txt".data name.data) then
    let vid := String.mk (stripTxtAll name.data)
    let text := readText fc
    match assocGet d (vid ++ "_meta.json") with
    | none => Except.ok (assocSet cache vid ⟨vid, none, some text⟩)
    | some mc =>
      match parseMeta mc with
      | .objV t c =>
          Except.ok (assocSet cache vid
            ⟨vid, some ⟨vid, t.getD "Unknown Title", c.getD "Unknown Channel"⟩,
              some text⟩)
      | .decodeErr => Except.ok (assocSet cache vid ⟨vid, none, some text⟩)
      | .attrErr => Except.error ()
  else Except.ok cache

/-- `TranscriptCache.load_from_disk`, rehydrating an empty cache from the
cache directory. -/
def loadFromDisk (d : Disk) : Except Unit Cache :=
  d.foldlM (loadOne d) []

/-- Deleting an artifact from the cache directory (an external event
between teardown and rehydration, not an operation of the server). -/
def diskRemove (name : String) (d : Disk) : Disk :=
  d.filter fun p => !(p.1 == name)

/-! ## Providers, formatter and the pipeline -/

/-- A caption segment as returned by the transcript provider: start
offset in seconds (a fractional number) and text. -/
structure Segment where
  start : ℚ
  text : String
  deriving Repr, DecidableEq

/-- Python `int()` on a number: truncation toward zero. -/
def pyTrunc (q : ℚ) : Int :=
  if 0 ≤ q then ⌊q⌋ else -⌊-q⌋

/-- Python `//` floor division (result as a number again). -/
def pyFloorDiv (a b : ℚ) : ℚ := (⌊a / b⌋ : Int)

/-- Python `%`: `a - b * (a // b)`. -/
def pyMod (a b : ℚ) : ℚ := a - b * pyFloorDiv a b

/-- `f"{n:02d}"`: zero-pad to width two. -/
def pad2 (n : Int) : String :=
  if 0 ≤ n ∧ n < 10 then "0" ++ toString n else toString n

/-- The `[MM:SS]` timestamp built from a segment start offset:
`minutes = int(start // 60)`, `seconds = int(start % 60)`. -/
def tsOf (q : ℚ) : String :=
  "[" ++ pad2 (pyTrunc (pyFloorDiv q 60)) ++ ":" ++
    pad2 (pyTrunc (pyMod q 60)) ++ "]"

/-- One transcript line: `f"{timestamp} {entry['text']}\n"`. -/
def fmtEntry (s : Segment) : String :=
  tsOf s.start ++ " " ++ s.text ++ "\n"

/-- The loop accumulating `formatted_transcript`. -/
def formatSegs (l : List Segment) : String :=
  l.foldl (fun acc e => acc ++ fmtEntry e) ""

/-- The transcript header built in `get_transcript`. -/
def mkHeader (vi : VideoInfo) (video_id : String) : String :=
  "Title: " ++ vi.title ++ "\n" ++ "Channel: " ++ vi.channel ++ "\n" ++
    "Video ID: " ++ video_id ++ "\n\n" ++ "TRANSCRIPT:\n"

/-- The full formatted transcript (`header + formatted_transcript`). -/
def mkFull (vi : VideoInfo) (video_id : String) (segs : List Segment) : String :=
  mkHeader vi video_id ++ formatSegs segs

/-- Behaviour of one `httpx` metadata request: the request raises a
transport error carrying message `msg`, or returns a status code and a
body — a JSON object with optional `title` / `author_name` fields, or a
body on which `response.json()` raises with message `msg`. -/
inductive MetaResp where
  | raises (msg : String)
  | resp (status : Nat) (title author : Option String)
  | respBadJson (status : Nat) (msg : String)

/-- A substitutable metadata provider: the oEmbed response per video id. -/
abbrev MetaProvider := String → MetaResp

/-- A substitutable transcript provider:
`YouTubeTranscriptApi.get_transcript`, returning segments or raising an
exception whose `str()` is the error payload. -/
abbrev TransProvider := String → Except String (List Segment)

/-- `get_video_info`: only a non-200 status is handled (returning the
minimal placeholder info); a transport error or a malformed JSON body
propagates as an exception (`Except.error`). -/
def getVideoInfoM (mp : MetaProvider) (video_id : String) :
    Except String VideoInfo :=
  match mp video_id with
  | .raises m => Except.error m
  | .resp s t a =>
    if s = 200 then
      Except.ok ⟨video_id, t.getD "Unknown Title", a.getD "Unknown Channel"⟩
    else Except.ok ⟨video_id, "Unknown", "Unknown"⟩
  | .respBadJson s m =>
    if s = 200 then Except.error m
    else Except.ok ⟨video_id, "Unknown", "Unknown"⟩

/-- `if cached_info and cached_info.text:` — the text served from cache,
`none` when the record is absent or its text is `None` or empty. -/
def cachedText (c : Cache) (video_id : String) : Option String :=
  match assocGet c video_id with
  | some info =>
    match info.text with
    | some t => if t = "" then none else some t
    | none => none
  | none => none

/-- `get_transcript`: cache check, fetch, format, metadata, persist.
Returns the result string, the new state, and how many times the
transcript provider was invoked.  Any exception inside the `try` block
(transcript fetch or the metadata call) yields the
`"Error retrieving transcript: ..."` message and leaves the state
untouched. -/
def getTranscriptM (tp : TransProvider) (mp : MetaProvider) (video_id : String)
    (st : ServerState) : String × ServerState × Nat :=
  match cachedText st.cache video_id with
  | some t => (t, st, 0)
  | none =>
    match tp video_id with
    | .error e => ("Error retrieving transcript: " ++ e, st, 1)
    | .ok segs =>
      match getVideoInfoM mp video_id with
      | .error e => ("Error retrieving transcript: " ++ e, st, 1)
      | .ok vi =>
        let full := mkFull vi video_id segs
        (full, cacheAdd ⟨video_id, some vi, some full⟩ st, 1)

/-- The `download_transcript` tool: extract the id, then run
`get_transcript`; a `ValueError` from extraction is rendered as
`f"Error: {str(e)}"`. -/
def downloadTranscriptM (tp : TransProvider) (mp : MetaProvider) (url : String)
    (st : ServerState) : String × ServerState × Nat :=
  match extract_video_id url with
  | .error msg => ("Error: " ++ msg, st, 0)
  | .ok id => getTranscriptM tp mp id st

/-- Two successive `download_transcript` calls for the same reference:
results, final state, and total transcript-provider invocations. -/
def downloadTwice (tp : TransProvider) (mp : MetaProvider) (url : String)
    (st : ServerState) : String × String × ServerState × Nat :=
  let r1 := downloadTranscriptM tp mp url st
  let r2 := downloadTranscriptM tp mp url r1.2.1
  (r1.1, r2.1, r2.2.1, r1.2.2 + r2.2.2)

/-! ## General lemmas about the embedded operations -/

theorem assocGet_set_self {β : Type} (l : List (String × β)) (k : String) (v : β) :
    assocGet (assocSet l k v) k = some v := by
  induction l with
  | nil => simp [assocSet, assocGet, List.find?]
  | cons p rest ih =>
    obtain ⟨k', v'⟩ := p
    by_cases h : k' = k
    · simp [assocSet, h, assocGet, List.find?]
    · simpa [assocSet, h, assocGet, List.find?, Ne.symm h] using ih

theorem assocGet_set_ne {β : Type} (l : List (String × β)) {k k' : String} (v : β)
    (h : k ≠ k') : assocGet (assocSet l k v) k' = assocGet l k' := by
  have hb : (k == k') = false := beq_eq_false_iff_ne.mpr h
  induction l with
  | nil => simp [assocSet, assocGet, List.find?, hb]
  | cons p rest ih =>
    obtain ⟨k0, v0⟩ := p
    by_cases h0 : k0 = k
    · subst h0
      simp [assocSet, assocGet, List.find?, hb]
    · by_cases h1 : k0 = k'
      · subst h1
        simp [assocSet, h0, assocGet, List.find?]
      · have hb1 : (k0 == k') = false := beq_eq_false_iff_ne.mpr h1
        simpa [assocSet, h0, assocGet, List.find?, hb1] using ih

theorem isPrefixOf_append_self (l r : List Char) : l.isPrefixOf (l ++ r) = true :=
  List.isPrefixOf_iff_prefix.2 (List.prefix_append l r)

/-- A list followed by a fixed tail is a suffix of another list followed by
the same tail exactly when the first is a suffix of the second. -/
theorem suffix_append_cancel {a b t : List Char} : a ++ t <:+ b ++ t ↔ a <:+ b := by
  constructor
  · intro h
    have h2 := List.reverse_prefix.2 h
    rw [List.reverse_append, List.reverse_append] at h2
    exact List.reverse_prefix.1 ((List.prefix_append_right_inj t.reverse).1 h2)
  · intro h
    obtain ⟨u, rfl⟩ := h
    exact ⟨u, by simp⟩

theorem dropWhile_no_match {p : Char → Bool} {l : List Char}
    (h : ∀ c ∈ l, p c = false) : l.dropWhile p = l := by
  cases l with
  | nil => rfl
  | cons c t => simp [List.dropWhile_cons, h c (List.mem_cons_self c t)]

theorem pyStripChar_no_match {c : Char} {l : List Char}
    (h : ∀ d ∈ l, (d == c) = false) : pyStripChar c l = l := by
  unfold pyStripChar
  rw [dropWhile_no_match h, dropWhile_no_match (by simpa using h), List.reverse_reverse]

theorem stripTxtAll_cons_ne {c : Char} (l : List Char) (h : c ≠ '.') :
    stripTxtAll (c :: l) = c :: stripTxtAll l := by
  rw [stripTxtAll.eq_def]
  split
  · rename_i rest heq
    injection heq with h1 _
    exact absurd h1 h
  · rename_i x c2 rest hno heq
    injection heq with h1 h2
    subst h1; subst h2; rfl
  · rename_i heq
    exact (List.cons_ne_nil c l heq).elim

theorem stripTxtAll_append_txt {l : List Char} (h : ∀ c ∈ l, c ≠ '.') :
    stripTxtAll (l ++ ['.', 't', 'x', 't']) = l := by
  induction l with
  | nil => decide
  | cons c t ih =>
    rw [List.cons_append, stripTxtAll_cons_ne _ (h c (List.mem_cons_self c t)),
      ih fun d hd => h d (List.mem_cons_of_mem c hd)]

/-- `containsSub` decides the substring (infix) relation. -/
theorem containsSub_iff_infix {pat l : List Char} :
    containsSub pat l = true ↔ pat <:+: l := by
  induction l with
  | nil =>
    simp only [containsSub, Bool.or_false]
    rw [List.isPrefixOf_iff_prefix, List.prefix_nil, List.infix_nil]
  | cons c t ih =>
    simp only [containsSub, Bool.or_eq_true, ih, List.infix_cons_iff]
    rw [List.isPrefixOf_iff_prefix]

theorem mkFull_ne_empty (vi : VideoInfo) (id : String) (segs : List Segment) :
    mkFull vi id segs ≠ "" := by
  intro h
  have hd := congrArg String.data h
  simp only [mkFull, mkHeader, String.data_append] at hd
  exact absurd hd (by simp)


theorem stringMk_data (s : String) : String.mk s.data = s := rfl

theorem idChar_ne {c d : Char} (h : isIdChar c = true) (hd : isIdChar d = false) :
    c ≠ d := by
  intro he
  subst he
  rw [h] at hd
  cases hd

theorem endsWithL_iff {suf l : List Char} : endsWithL suf l = true ↔ suf <:+ l := by
  unfold endsWithL
  rw [List.isPrefixOf_iff_prefix]
  exact List.reverse_prefix

theorem endsWithL_txt_self (l : List Char) :
    endsWithL ['.', 't', 'x', 't'] (l ++ ['.', 't', 'x', 't']) = true :=
  endsWithL_iff.2 (List.suffix_append _ _)

theorem endsWithL_metaTxt {l : List Char} (h : ¬ ("_meta".data <:+ l)) :
    endsWithL ['_', 'm', 'e', 't', 'a', '.', 't', 'x', 't'] (l ++ ['.', 't', 'x', 't'])
      = false := by
  cases hb : endsWithL ['_', 'm', 'e', 't', 'a', '.', 't', 'x', 't']
      (l ++ ['.', 't', 'x', 't']) with
  | false => rfl
  | true =>
    have hs := endsWithL_iff.1 hb
    rw [show (['_', 'm', 'e', 't', 'a', '.', 't', 'x', 't'] : List Char)
        = "_meta".data ++ ['.', 't', 'x', 't'] from rfl] at hs
    exact absurd (suffix_append_cancel.1 hs) h

theorem endsWithL_txt_metaJson (l : List Char) :
    endsWithL ['.', 't', 'x', 't']
      (l ++ ['_', 'm', 'e', 't', 'a', '.', 'j', 's', 'o', 'n']) = false := by
  unfold endsWithL
  rw [List.reverse_append]
  rfl

theorem metaJson_ne_txt (id : String) : (id ++ "_meta.json") ≠ (id ++ ".txt") := by
  intro h
  have hl := congrArg (fun s => s.data.length) h
  simp [String.data_append] at hl

/-- Evaluation of one rehydration step on a text artifact named
`<id>.txt` for a well-formed identifier. -/
theorem loadOne_txt (d : Disk) (cache : Cache) (id t : String)
    (hdot : ∀ c ∈ id.data, c ≠ '.')
    (hmeta : ¬ ("_meta".data <:+ id.data)) :
    loadOne d cache (id ++ ".txt", .textC t)
      = match assocGet d (id ++ "_meta.json") with
        | none => Except.ok (assocSet cache id ⟨id, none, some t⟩)
        | some mc =>
          match parseMeta mc with
          | .objV ti ch => Except.ok (assocSet cache id
              ⟨id, some ⟨id, ti.getD "Unknown Title", ch.getD "Unknown Channel"⟩, some t⟩)
          | .decodeErr => Except.ok (assocSet cache id ⟨id, none, some t⟩)
          | .attrErr => Except.error () := by
  simp only [loadOne, String.data_append, endsWithL_txt_self, endsWithL_metaTxt hmeta,
    stripTxtAll_append_txt hdot, stringMk_data, Bool.not_false, Bool.and_self,
    if_true, readText]

/-- A metadata artifact is skipped by the rehydration loop (its name
does not end in `.txt`). -/
theorem loadOne_skip_metaJson (d : Disk) (cache : Cache) (id : String)
    (fc : FileContent) :
    loadOne d cache (id ++ "_meta.json", fc) = Except.ok cache := by
  simp only [loadOne, String.data_append, endsWithL_txt_metaJson, Bool.false_and,
    Bool.false_eq_true, if_false]

theorem exceptBind_ok {α β : Type} (a : α) (f : α → Except Unit β) :
    (Except.ok a >>= f) = f a := rfl

theorem loadOne_txt_none (d : Disk) (cache : Cache) (id t : String)
    (hdot : ∀ c ∈ id.data, c ≠ '.')
    (hmeta : ¬ ("_meta".data <:+ id.data))
    (hget : assocGet d (id ++ "_meta.json") = none) :
    loadOne d cache (id ++ ".txt", .textC t)
      = Except.ok (assocSet cache id ⟨id, none, some t⟩) := by
  rw [loadOne_txt _ _ _ _ hdot hmeta, hget]

theorem loadOne_txt_corrupt (d : Disk) (cache : Cache) (id t : String)
    (hdot : ∀ c ∈ id.data, c ≠ '.')
    (hmeta : ¬ ("_meta".data <:+ id.data))
    (hget : assocGet d (id ++ "_meta.json") = some .corruptC) :
    loadOne d cache (id ++ ".txt", .textC t)
      = Except.ok (assocSet cache id ⟨id, none, some t⟩) := by
  rw [loadOne_txt _ _ _ _ hdot hmeta, hget]
  rfl

theorem loadOne_txt_meta (d : Disk) (cache : Cache) (id t ti ch : String)
    (hdot : ∀ c ∈ id.data, c ≠ '.')
    (hmeta : ¬ ("_meta".data <:+ id.data))
    (hget : assocGet d (id ++ "_meta.json") = some (.metaC (some ti) (some ch))) :
    loadOne d cache (id ++ ".txt", .textC t)
      = Except.ok (assocSet cache id ⟨id, some ⟨id, ti, ch⟩, some t⟩) := by
  rw [loadOne_txt _ _ _ _ hdot hmeta, hget]
  rfl

theorem idChar_beq_false {c d : Char} (h : isIdChar c = true) (hd : isIdChar d = false) :
    (c == d) = false :=
  beq_eq_false_iff_ne.mpr (idChar_ne h hd)

theorem containsSub_cons (pat : List Char) (c : Char) (rest : List Char) :
    containsSub pat (c :: rest)
      = (pat.isPrefixOf (c :: rest) || containsSub pat rest) := rfl

theorem containsSub_missing {pat l : List Char} {c : Char} (hc : c ∈ pat)
    (h : ∀ d ∈ l, d ≠ c) : containsSub pat l = false := by
  cases hb : containsSub pat l with
  | false => rfl
  | true =>
    have hinf := containsSub_iff_infix.1 hb
    exact absurd rfl (h c (hinf.subset hc))

theorem scrub_id {id : List Char} (h : ∀ c ∈ id, isIdChar c = true) :
    id.filter (fun c => !(c == '\t' || c == '\r' || c == '\n')) = id := by
  rw [List.filter_eq_self]
  intro c hc
  simp [idChar_beq_false (h c hc) (show isIdChar '\t' = false by decide),
    idChar_beq_false (h c hc) (show isIdChar '\r' = false by decide),
    idChar_beq_false (h c hc) (show isIdChar '\n' = false by decide)]

theorem scrub_append_id (pre : List Char) {id : List Char}
    (hpre : pre.filter (fun c => !(c == '\t' || c == '\r' || c == '\n')) = pre)
    (h : ∀ c ∈ id, isIdChar c = true) :
    scrub (pre ++ id) = pre ++ id := by
  unfold scrub
  rw [List.filter_append, hpre, scrub_id h]

theorem splitAmp_no_amp {l : List Char} (h : ∀ c ∈ l, (c == '&') = false) :
    splitAmp l = [l] := by
  induction l with
  | nil => rfl
  | cons c t ih =>
    simp only [splitAmp]
    rw [ih fun d hd => h d (List.mem_cons_of_mem c hd),
      h c (List.mem_cons_self c t)]
    rfl

theorem unquoteL_cons_ne {c : Char} (l : List Char) (h : c ≠ '%') :
    unquoteL (c :: l) = c :: unquoteL l := by
  rw [unquoteL.eq_def]
  split
  · rename_i a b rest heq
    injection heq with h1 _
    exact absurd h1 h
  · rename_i x c2 rest hno heq
    injection heq with h1 h2
    subst h1; subst h2; rfl
  · rename_i heq
    exact (List.cons_ne_nil c l heq).elim

theorem unquoteL_id {l : List Char} (h : ∀ c ∈ l, c ≠ '%') : unquoteL l = l := by
  induction l with
  | nil => rfl
  | cons c t ih =>
    rw [unquoteL_cons_ne t (h c (List.mem_cons_self c t)),
      ih fun d hd => h d (List.mem_cons_of_mem c hd)]

theorem plusSpace_id {l : List Char} (h : ∀ c ∈ l, (c == '+') = false) :
    plusSpace l = l := by
  induction l with
  | nil => rfl
  | cons c t ih =>
    show (if (c == '+') = true then ' ' else c) :: plusSpace t = c :: t
    rw [h c (List.mem_cons_self c t), if_neg (by simp),
      ih fun d hd => h d (List.mem_cons_of_mem c hd)]

theorem parseQs_veq {id : List Char} (hne : id ≠ [])
    (h : ∀ c ∈ id, isIdChar c = true) :
    parseQsL ("v=".data ++ id) = [("v".data, id)] := by
  have hamp : splitAmp ("v=".data ++ id) = ["v=".data ++ id] := by
    apply splitAmp_no_amp
    intro c hc
    rcases List.mem_append.1 hc with h1 | h2
    · exact (show ∀ c ∈ "v=".data, (c == '&') = false by decide) c h1
    · exact idChar_beq_false (h c h2) (by decide)
  have hpf : parseField ('v' :: '=' :: id) = some ("v".data, id) := by
    unfold parseField
    rw [if_neg (List.cons_ne_nil _ _),
      show breakP (fun c => c == '=') ('v' :: '=' :: id) = (['v'], '=' :: id) from rfl]
    show (if id = [] then none
      else some (unquoteL (plusSpace ['v']), unquoteL (plusSpace id))) = _
    rw [if_neg hne, plusSpace_id (fun c hc => idChar_beq_false (h c hc) (by decide)),
      unquoteL_id (fun c hc => idChar_ne (h c hc) (by decide))]
    rfl
  unfold parseQsL
  rw [hamp, show ("v=".data ++ id) = 'v' :: '=' :: id from rfl,
    List.filterMap_cons, hpf]
  rfl

theorem infix_append_right {pat a : List Char} (h : pat <:+: a) (b : List Char) :
    pat <:+: a ++ b := by
  obtain ⟨s, t, rfl⟩ := h
  exact ⟨s, t ++ b, by simp⟩

theorem short_frag {id : List Char} (h : ∀ c ∈ id, isIdChar c = true) :
    splitFragment ('/' :: id) = ('/' :: id, []) := by
  have hb : breakP (fun c => c == '#') ('/' :: id) = ('/' :: id, []) := by
    apply breakP_no_match
    intro c hc
    rcases List.mem_cons.1 hc with rfl | hc2
    · decide
    · exact idChar_beq_false (h c hc2) (by decide)
  unfold splitFragment
  rw [hb]

theorem short_query {id : List Char} (h : ∀ c ∈ id, isIdChar c = true) :
    splitQuery ('/' :: id) = ('/' :: id, []) := by
  have hb : breakP (fun c => c == '?') ('/' :: id) = ('/' :: id, []) := by
    apply breakP_no_match
    intro c hc
    rcases List.mem_cons.1 hc with rfl | hc2
    · decide
    · exact idChar_beq_false (h c hc2) (by decide)
  unfold splitQuery
  rw [hb]

theorem short_params {id : List Char} (h : ∀ c ∈ id, isIdChar c = true) :
    splitParams ('/' :: id) = ('/' :: id, []) := by
  have hany : (('/' :: id).any fun c => c == ';') = false := by
    rw [List.any_eq_false]
    intro c hc
    rcases List.mem_cons.1 hc with rfl | hc2
    · decide
    · rw [idChar_beq_false (h c hc2) (by decide)]
      decide
  unfold splitParams
  rw [hany]
  rfl

theorem urlparse_short {id : List Char} (h : ∀ c ∈ id, isIdChar c = true) :
    urlparseL ("https://youtu.be/".data ++ id)
      = Except.ok ⟨"https".data, "youtu.be".data, '/' :: id, [], [], []⟩ := by
  unfold urlparseL
  rw [show lstripC0 ("https://youtu.be/".data ++ id)
      = "https://youtu.be/".data ++ id from rfl]
  rw [scrub_append_id _ (by decide) h]
  rw [show splitScheme ("https://youtu.be/".data ++ id)
      = ("https".data, "//youtu.be/".data ++ id) from rfl]
  unfold urlparse0
  show (if bracketsBad (splitNetloc ("//youtu.be/".data ++ id)).1 then
      (Except.error "Invalid IPv6 URL" : Except String UrlParts)
    else Except.ok
      (urlparse2 "https".data (splitNetloc ("//youtu.be/".data ++ id)))) = _
  rw [show splitNetloc ("//youtu.be/".data ++ id)
      = ("youtu.be".data, '/' :: id) from rfl]
  rw [show bracketsBad (("youtu.be".data, '/' :: id) : List Char × List Char).1 = false
    from rfl]
  rw [if_neg Bool.false_ne_true]
  unfold urlparse2
  show Except.ok
      (urlparse3 "https".data "youtu.be".data (splitFragment ('/' :: id))) = _
  rw [short_frag h]
  unfold urlparse3
  show Except.ok
      (urlparse4 "https".data "youtu.be".data [] (splitQuery ('/' :: id))) = _
  rw [short_query h]
  unfold urlparse4
  show Except.ok (urlparse5 "https".data "youtu.be".data [] []
      (if "https".data ∈ usesParamsList then splitParams ('/' :: id)
       else ('/' :: id, []))) = _
  rw [if_pos (show "https".data ∈ usesParamsList by decide), short_params h]
  rfl

theorem pyStripChar_slash_id {id : List Char} (h : ∀ c ∈ id, isIdChar c = true) :
    pyStripChar '/' ('/' :: id) = id := by
  have hdw : id.dropWhile (· == '/') = id :=
    dropWhile_no_match fun c hc => idChar_beq_false (h c hc) (by decide)
  have hdw2 : id.reverse.dropWhile (· == '/') = id.reverse :=
    dropWhile_no_match fun c hc =>
      idChar_beq_false (h c (List.mem_reverse.1 hc)) (by decide)
  unfold pyStripChar
  rw [List.dropWhile_cons]
  simp only [show (('/' : Char) == '/') = true from rfl, if_true, hdw, hdw2,
    List.reverse_reverse]

theorem extract_short {id : String} (h : ∀ c ∈ id.data, isIdChar c = true) :
    extract_video_id ("https://youtu.be/" ++ id) = Except.ok id := by
  have hcontains :
      containsSub "youtu.be".data ("https://youtu.be/" ++ id).data = true := by
    rw [String.data_append]
    exact containsSub_iff_infix.2
      (infix_append_right
        (by decide : "youtu.be".data <:+: "https://youtu.be/".data) _)
  unfold extract_video_id
  rw [if_pos hcontains, String.data_append, urlparse_short h]
  show Except.ok (String.mk (pyStripChar '/' ('/' :: id.data))) = _
  rw [pyStripChar_slash_id h, stringMk_data]

theorem watch_frag {id : List Char} (h : ∀ c ∈ id, isIdChar c = true) :
    splitFragment ("/watch?v=".data ++ id) = ("/watch?v=".data ++ id, []) := by
  have hb : breakP (fun c => c == '#') ("/watch?v=".data ++ id)
      = ("/watch?v=".data ++ id, []) := by
    apply breakP_no_match
    intro c hc
    rcases List.mem_append.1 hc with h1 | h2
    · exact (show ∀ c ∈ "/watch?v=".data, (c == '#') = false by decide) c h1
    · exact idChar_beq_false (h c h2) (by decide)
  unfold splitFragment
  rw [hb]

theorem urlparse_watch {id : List Char} (h : ∀ c ∈ id, isIdChar c = true) :
    urlparseL ("https://www.youtube.com/watch?v=".data ++ id)
      = Except.ok ⟨"https".data, "www.youtube.com".data, "/watch".data, [],
         "v=".data ++ id, []⟩ := by
  unfold urlparseL
  rw [show lstripC0 ("https://www.youtube.com/watch?v=".data ++ id)
      = "https://www.youtube.com/watch?v=".data ++ id from rfl]
  rw [scrub_append_id _ (by decide) h]
  rw [show splitScheme ("https://www.youtube.com/watch?v=".data ++ id)
      = ("https".data, "//www.youtube.com/watch?v=".data ++ id) from rfl]
  unfold urlparse0
  show (if bracketsBad
        (splitNetloc ("//www.youtube.com/watch?v=".data ++ id)).1 then
      (Except.error "Invalid IPv6 URL" : Except String UrlParts)
    else Except.ok (urlparse2 "https".data
      (splitNetloc ("//www.youtube.com/watch?v=".data ++ id)))) = _
  rw [show splitNetloc ("//www.youtube.com/watch?v=".data ++ id)
      = ("www.youtube.com".data, "/watch?v=".data ++ id) from rfl]
  rw [show bracketsBad (("www.youtube.com".data, "/watch?v=".data ++ id) :
      List Char × List Char).1 = false from rfl]
  rw [if_neg Bool.false_ne_true]
  unfold urlparse2
  show Except.ok (urlparse3 "https".data "www.youtube.com".data
      (splitFragment ("/watch?v=".data ++ id))) = _
  rw [watch_frag h]
  unfold urlparse3
  show Except.ok (urlparse4 "https".data "www.youtube.com".data []
      (splitQuery ("/watch?v=".data ++ id))) = _
  rw [show splitQuery ("/watch?v=".data ++ id)
      = ("/watch".data, "v=".data ++ id) from rfl]
  unfold urlparse4
  show Except.ok (urlparse5 "https".data "www.youtube.com".data []
      ("v=".data ++ id)
      (if "https".data ∈ usesParamsList then splitParams "/watch".data
       else ("/watch".data, []))) = _
  rw [if_pos (show "https".data ∈ usesParamsList by decide),
    show splitParams "/watch".data = ("/watch".data, []) from by decide]
  rfl

/-- When the input is outside the short-link branch and parses with a
recognized main-site netloc, the extractor returns the first `v` value. -/
theorem extract_netloc_branch {url : String} {pu : UrlParts}
    (hshort : containsSub "youtu.be".data url.data = false)
    (hpu : urlparseL url.data = Except.ok pu)
    (hhost : pu.netloc = "youtube.com".data ∨ pu.netloc = "www.youtube.com".data ∨
      pu.netloc = "m.youtube.com".data) :
    extract_video_id url = Except.ok (String.mk (getParamV (parseQsL pu.query))) := by
  unfold extract_video_id
  rw [if_neg (by rw [hshort]; simp), hpu]
  show (if pu.netloc = "youtube.com".data ∨ pu.netloc = "www.youtube.com".data ∨
        pu.netloc = "m.youtube.com".data then
      Except.ok (String.mk (getParamV (parseQsL pu.query)))
    else if matches11 url.data then Except.ok url
    else Except.error ("Could not extract YouTube video ID from " ++ url)) = _
  rw [if_pos hhost]

/-- When the input is outside the short-link branch, parses with an
unrecognized netloc, and is not a bare identifier, extraction fails. -/
theorem extract_no_shape {url : String} {pu : UrlParts}
    (hshort : containsSub "youtu.be".data url.data = false)
    (hpu : urlparseL url.data = Except.ok pu)
    (hhost : ¬ (pu.netloc = "youtube.com".data ∨
      pu.netloc = "www.youtube.com".data ∨ pu.netloc = "m.youtube.com".data))
    (hm : matches11 url.data = false) :
    extract_video_id url
      = Except.error ("Could not extract YouTube video ID from " ++ url) := by
  unfold extract_video_id
  rw [if_neg (by rw [hshort]; simp), hpu]
  show (if pu.netloc = "youtube.com".data ∨ pu.netloc = "www.youtube.com".data ∨
        pu.netloc = "m.youtube.com".data then
      Except.ok (String.mk (getParamV (parseQsL pu.query)))
    else if matches11 url.data then Except.ok url
    else Except.error ("Could not extract YouTube video ID from " ++ url)) = _
  rw [if_neg hhost, if_neg (by rw [hm]; simp)]

/-- A `ValueError` raised by `urlparse` propagates out of the extractor
on the non-short-link path. -/
theorem extract_parse_error {url e : String}
    (hshort : containsSub "youtu.be".data url.data = false)
    (hpu : urlparseL url.data = Except.error e) :
    extract_video_id url = Except.error e := by
  unfold extract_video_id
  rw [if_neg (by rw [hshort]; simp), hpu]

/-- On the short-link branch a successful parse yields the stripped path. -/
theorem extract_contains_ok {url : String} {pu : UrlParts}
    (h : containsSub "youtu.be".data url.data = true)
    (hpu : urlparseL url.data = Except.ok pu) :
    extract_video_id url = Except.ok (String.mk (pyStripChar '/' pu.path)) := by
  unfold extract_video_id
  rw [if_pos h, hpu]

/-- On the short-link branch a `ValueError` from `urlparse` propagates. -/
theorem extract_contains_err {url e : String}
    (h : containsSub "youtu.be".data url.data = true)
    (hpu : urlparseL url.data = Except.error e) :
    extract_video_id url = Except.error e := by
  unfold extract_video_id
  rw [if_pos h, hpu]

theorem extract_watch {id : String} (hne : id.data ≠ [])
    (h : ∀ c ∈ id.data, isIdChar c = true) :
    extract_video_id ("https://www.youtube.com/watch?v=" ++ id) = Except.ok id := by
  have h0 : containsSub ['y', 'o', 'u', 't', 'u', '.', 'b', 'e'] id.data = false :=
    containsSub_missing (show '.' ∈ ['y', 'o', 'u', 't', 'u', '.', 'b', 'e'] by decide)
      (fun d hd => idChar_ne (h d hd) (by decide))
  have hnosub : containsSub "youtu.be".data
      ("https://www.youtube.com/watch?v=" ++ id).data = false := by
    rw [String.data_append]
    simp [containsSub_cons, List.isPrefixOf, h0]
  have hpu : urlparseL ("https://www.youtube.com/watch?v=" ++ id).data
      = Except.ok ⟨"https".data, "www.youtube.com".data, "/watch".data, [],
        "v=".data ++ id.data, []⟩ := by
    rw [String.data_append]
    exact urlparse_watch h
  rw [extract_netloc_branch hnosub hpu (Or.inr (Or.inl rfl))]
  show Except.ok (String.mk (getParamV (parseQsL ("v=".data ++ id.data)))) = _
  rw [parseQs_veq hne h]
  show Except.ok (String.mk id.data) = _
  rw [stringMk_data]

theorem errPrefix1 (msg : String) :
    "Error".data.isPrefixOf ("Error: " ++ msg).data = true := by
  rw [String.data_append]
  have h : ("Error: ").data = "Error".data ++ ": ".data := by decide
  rw [h, List.append_assoc]
  exact isPrefixOf_append_self _ _

theorem errPrefix2 (msg : String) :
    "Error".data.isPrefixOf ("Error retrieving transcript: " ++ msg).data = true := by
  rw [String.data_append]
  have h : ("Error retrieving transcript: ").data
      = "Error".data ++ " retrieving transcript: ".data := by decide
  rw [h, List.append_assoc]
  exact isPrefixOf_append_self _ _

/-! ## Claims -/

/-- C3 (failing-input evaluation): a transport error in the metadata
request propagates out of `get_video_info` as an exception instead of
yielding a placeholder `VideoInfo`, and it makes `get_transcript` return
the error message — the transcript is NOT delivered, although the
transcript fetch itself succeeded.  Only the non-success-status case
yields the placeholder. -/
theorem c3_metadata_failure_blocks_transcript :
    getVideoInfoM (fun _ => .raises "connection failed") "dQw4w9WgXcQ"
      = Except.error "connection failed" ∧
    getTranscriptM (fun _ => Except.ok []) (fun _ => .raises "connection failed")
        "dQw4w9WgXcQ" ⟨[], []⟩
      = ("Error retrieving transcript: connection failed", ⟨[], []⟩, 1) ∧
    getVideoInfoM (fun _ => .respBadJson 200 "malformed json") "dQw4w9WgXcQ"
      = Except.error "malformed json" ∧
    getVideoInfoM (fun _ => .resp 404 none none) "dQw4w9WgXcQ"
      = Except.ok ⟨"dQw4w9WgXcQ", "Unknown", "Unknown"⟩ := by
  decide

/-- C9: if the transcript fetch fails for an identifier that is not
servable from cache, `get_transcript` returns the error message and
leaves the whole state (in-memory cache and disk) unchanged, and a
second call re-attempts the fetch (invokes the provider again). -/
theorem c9_fetch_failure_leaves_cache_unchanged
    (tp : TransProvider) (mp : MetaProvider) (id : String) (st : ServerState)
    (e : String) (hmiss : cachedText st.cache id = none)
    (hfail : tp id = Except.error e) :
    getTranscriptM tp mp id st = ("Error retrieving transcript: " ++ e, st, 1) ∧
    (getTranscriptM tp mp id (getTranscriptM tp mp id st).2.1).2.2 = 1 := by
  have h1 : getTranscriptM tp mp id st = ("Error retrieving transcript: " ++ e, st, 1) := by
    simp [getTranscriptM, hmiss, hfail]
  refine ⟨h1, ?_⟩
  rw [h1]
  simp [getTranscriptM, hmiss, hfail]

/-- Witness for C9 at a concrete failing provider and empty state. -/
theorem c9_witness :
    cachedText ([] : Cache) "dQw4w9WgXcQ" = none ∧
    getTranscriptM (fun _ => Except.error "err") (fun _ => .resp 200 none none)
        "dQw4w9WgXcQ" ⟨[], []⟩
      = ("Error retrieving transcript: err", ⟨[], []⟩, 1) :=
  ⟨rfl, (c9_fetch_failure_leaves_cache_unchanged
      (fun _ => Except.error "err") (fun _ => .resp 200 none none)
      "dQw4w9WgXcQ" ⟨[], []⟩ "err" rfl rfl).1⟩

/-- C10 counterexample: `"http://[/youtu.be"` contains the substring
`youtu.be` and so takes the short-link branch, but `urlparse` raises
`ValueError("Invalid IPv6 URL")` on its unbalanced-bracket netloc — the
branch fails instead of returning a stripped path. -/
theorem c10_counterexample :
    containsSub "youtu.be".data "http://[/youtu.be".data = true ∧
    extract_video_id "http://[/youtu.be" = Except.error "Invalid IPv6 URL" := by
  decide

/-- C10 amended: any input containing the substring `youtu.be` —
wherever it occurs — takes the short-link branch of `extract_video_id`;
when the URL parses, the branch returns the parsed path stripped of `/`
on both ends, and when `urlparse` raises (unbalanced netloc brackets)
that `ValueError` propagates out of the branch; in particular
`"https://youtu.be/"` yields the empty identifier. -/
theorem c10_shortlink_branch_amended :
    (∀ url : String, containsSub "youtu.be".data url.data = true →
      (∃ pu, urlparseL url.data = Except.ok pu ∧
        extract_video_id url
          = Except.ok (String.mk (pyStripChar '/' pu.path))) ∨
      (∃ e, urlparseL url.data = Except.error e ∧
        extract_video_id url = Except.error e)) ∧
    extract_video_id "https://youtu.be/" = Except.ok "" := by
  constructor
  · intro url h
    cases hpu : urlparseL url.data with
    | ok pu => exact Or.inl ⟨pu, rfl, extract_contains_ok h hpu⟩
    | error e => exact Or.inr ⟨e, rfl, extract_contains_err h hpu⟩
  · decide

/-- Witness for C10: a main-site URL merely mentioning `youtu.be` in a
query parameter is captured by the short-link branch. -/
theorem c10_witness :
    (∃ pu, urlparseL "https://www.youtube.com/watch?v=abc&x=youtu.be".data
        = Except.ok pu ∧
      extract_video_id "https://www.youtube.com/watch?v=abc&x=youtu.be"
        = Except.ok (String.mk (pyStripChar '/' pu.path))) ∨
    (∃ e, urlparseL "https://www.youtube.com/watch?v=abc&x=youtu.be".data
        = Except.error e ∧
      extract_video_id "https://www.youtube.com/watch?v=abc&x=youtu.be"
        = Except.error e) :=
  c10_shortlink_branch_amended.1 _ (by decide)

/-- C5 counterexample: for a recognized main-site host with the query
parameter `v` absent, `extract_video_id` does NOT fail with an
`InvalidReference` error — it returns the empty identifier. -/
theorem c5_counterexample :
    extract_video_id "https://www.youtube.com/watch" = Except.ok "" := by decide

/-- C5 amended: on a recognized main-site host (and outside the
short-link branch), when every parsed query pair has a name other than
`v` — which is what `parse_qs` produces whenever `v` is absent or has an
empty value — the extractor returns the empty-string identifier instead
of failing. -/
theorem c5_empty_v_yields_empty_id (url : String) (pu : UrlParts)
    (hshort : containsSub "youtu.be".data url.data = false)
    (hpu : urlparseL url.data = Except.ok pu)
    (hhost : pu.netloc = "youtube.com".data ∨
      pu.netloc = "www.youtube.com".data ∨ pu.netloc = "m.youtube.com".data)
    (hv : ∀ p ∈ parseQsL pu.query, p.1 ≠ "v".data) :
    extract_video_id url = Except.ok "" := by
  have hfind :
      (parseQsL pu.query).find? (fun p => p.1 = "v".data) = none := by
    rw [List.find?_eq_none]
    intro x hx
    simpa using hv x hx
  rw [extract_netloc_branch hshort hpu hhost]
  simp [getParamV, hfind]

/-- Witness for C5 at a URL whose `v` parameter is present but empty. -/
theorem c5_witness :
    containsSub "youtu.be".data "https://www.youtube.com/watch?v=".data = false ∧
    extract_video_id "https://www.youtube.com/watch?v=" = Except.ok "" :=
  ⟨by decide, c5_empty_v_yields_empty_id "https://www.youtube.com/watch?v="
    ⟨"https".data, "www.youtube.com".data, "/watch".data, [], "v=".data, []⟩
    (by decide) (by decide) (by decide) (by decide)⟩

/-- C8 counterexample: inserting a record that has a `VideoInfo` but no
formatted text updates the in-memory map yet writes NO artifact at all —
neither the text artifact (which the claim says is written always) nor
the metadata artifact (which the claim says is written exactly when a
`VideoInfo` is present). -/
theorem c8_counterexample :
    (cacheAdd ⟨"abc", some ⟨"abc", "T", "C"⟩, none⟩ ⟨[], []⟩).cache
      = [("abc", ⟨"abc", some ⟨"abc", "T", "C"⟩, none⟩)] ∧
    (cacheAdd ⟨"abc", some ⟨"abc", "T", "C"⟩, none⟩ ⟨[], []⟩).disk = [] := by
  decide

/-- C8 amended: `add` always updates the in-memory map keyed by
identifier and synchronously persists: the text artifact is written
exactly when formatted text is present and non-empty, and the metadata
artifact exactly when additionally a `VideoInfo` is present; a record
with absent or empty text writes nothing. -/
theorem c8_insert_amended (info : TranscriptInfo) (st : ServerState) :
    assocGet (cacheAdd info st).cache info.video_id = some info ∧
    (∀ t, info.text = some t → t ≠ "" →
      assocGet (cacheAdd info st).disk (info.video_id ++ ".txt")
          = some (.textC t) ∧
      (∀ vi, info.video_info = some vi →
        assocGet (cacheAdd info st).disk (info.video_id ++ "_meta.json")
            = some (.metaC (some vi.title) (some vi.channel))) ∧
      (info.video_info = none →
        assocGet (cacheAdd info st).disk (info.video_id ++ "_meta.json")
            = assocGet st.disk (info.video_id ++ "_meta.json"))) ∧
    ((info.text = none ∨ info.text = some "") → (cacheAdd info st).disk = st.disk) := by
  have hne : info.video_id ++ "_meta.json" ≠ info.video_id ++ ".txt" := by
    intro h
    have hl := congrArg (fun s => s.data.length) h
    simp [String.data_append] at hl
  refine ⟨by simpa [cacheAdd] using assocGet_set_self st.cache info.video_id info, ?_, ?_⟩
  · intro t ht htne
    cases hvi : info.video_info with
    | some vi =>
      refine ⟨?_, ?_, ?_⟩
      · simp only [cacheAdd, saveToDisk, ht, hvi, if_neg htne]
        rw [assocGet_set_ne _ _ hne, assocGet_set_self]
      · intro vi2 hvi2
        injection hvi2 with hvi2
        subst hvi2
        simp only [cacheAdd, saveToDisk, ht, hvi, if_neg htne]
        rw [assocGet_set_self]
      · intro hnone
        cases hnone
    | none =>
      refine ⟨?_, ?_, ?_⟩
      · simp only [cacheAdd, saveToDisk, ht, hvi, if_neg htne]
        rw [assocGet_set_self]
      · intro vi2 hvi2
        cases hvi2
      · intro _
        simp only [cacheAdd, saveToDisk, ht, hvi, if_neg htne]
        rw [assocGet_set_ne _ _ (Ne.symm hne)]
  · rintro (ht | ht) <;> simp [cacheAdd, saveToDisk, ht]

/-- Witness for C8 at a complete record inserted into the empty state. -/
theorem c8_witness :
    assocGet (cacheAdd ⟨"abc", some ⟨"abc", "T", "C"⟩, some "X"⟩ ⟨[], []⟩).disk
        ("abc" ++ ".txt") = some (.textC "X") ∧
    assocGet (cacheAdd ⟨"abc", some ⟨"abc", "T", "C"⟩, some "X"⟩ ⟨[], []⟩).cache "abc"
      = some ⟨"abc", some ⟨"abc", "T", "C"⟩, some "X"⟩ :=
  ⟨((c8_insert_amended ⟨"abc", some ⟨"abc", "T", "C"⟩, some "X"⟩ ⟨[], []⟩).2.1 "X" rfl
      (by decide)).1,
    (c8_insert_amended ⟨"abc", some ⟨"abc", "T", "C"⟩, some "X"⟩ ⟨[], []⟩).1⟩

/-- C1 counterexample: when the transcript fetch fails, nothing is
cached, so running the pipeline twice invokes the transcript provider
twice — not "at most once" as the claim requires for every identifier. -/
theorem c1_counterexample :
    (downloadTwice (fun _ => Except.error "no captions") (fun _ => .resp 200 none none)
      "https://youtu.be/dQw4w9WgXcQ" ⟨[], []⟩).2.2.2 = 2 := by
  decide

/-- C1 amended: provided the transcript fetch succeeds and the metadata
request does not raise, two successive `download_transcript` calls for
the same reference return identical text and the transcript provider is
invoked at most once (the second call is a cache hit). -/
theorem c1_idempotent_amended (tp : TransProvider) (mp : MetaProvider) (url : String)
    (st : ServerState)
    (htp : ∀ i, ∃ segs, tp i = Except.ok segs)
    (hmp : ∀ i, ∃ vi, getVideoInfoM mp i = Except.ok vi) :
    (downloadTwice tp mp url st).1 = (downloadTwice tp mp url st).2.1 ∧
    (downloadTwice tp mp url st).2.2.2 ≤ 1 := by
  unfold downloadTwice downloadTranscriptM
  cases hext : extract_video_id url with
  | error msg => simp
  | ok id =>
    cases hc : cachedText st.cache id with
    | some t => simp [getTranscriptM, hc]
    | none =>
      obtain ⟨segs, hsegs⟩ := htp id
      obtain ⟨vi, hvi⟩ := hmp id
      have h2 : cachedText (cacheAdd ⟨id, some vi, some (mkFull vi id segs)⟩ st).cache id
          = some (mkFull vi id segs) := by
        simp [cacheAdd, cachedText, assocGet_set_self, mkFull_ne_empty vi id segs]
      simp [getTranscriptM, hc, hsegs, hvi, h2]

/-- Witness for C1 with never-failing providers on the empty state. -/
theorem c1_witness :
    (downloadTwice (fun _ => Except.ok []) (fun _ => .resp 200 (some "T") (some "C"))
        "https://youtu.be/dQw4w9WgXcQ" ⟨[], []⟩).1
      = (downloadTwice (fun _ => Except.ok []) (fun _ => .resp 200 (some "T") (some "C"))
        "https://youtu.be/dQw4w9WgXcQ" ⟨[], []⟩).2.1 ∧
    (downloadTwice (fun _ => Except.ok []) (fun _ => .resp 200 (some "T") (some "C"))
        "https://youtu.be/dQw4w9WgXcQ" ⟨[], []⟩).2.2.2 ≤ 1 :=
  c1_idempotent_amended _ _ "https://youtu.be/dQw4w9WgXcQ" ⟨[], []⟩
    (fun i => ⟨[], rfl⟩) (fun i => ⟨⟨i, "T", "C"⟩, rfl⟩)

/-- C7 counterexample: a failed transcript fetch is rendered as
`"Error retrieving transcript: ..."`, which does not carry the `Error:`
prefix the claim requires of every error rendering. -/
theorem c7_counterexample :
    (downloadTranscriptM (fun _ => Except.error "no captions")
        (fun _ => .resp 200 none none) "https://youtu.be/dQw4w9WgXcQ" ⟨[], []⟩).1
      = "Error retrieving transcript: no captions" ∧
    "Error:".data.isPrefixOf "Error retrieving transcript: no captions".data = false := by
  decide

/-- C7 amended: every `download_transcript` result is the transcript
text (served from cache, or freshly formatted after a successful fetch)
or an error string beginning with `Error` — `"Error: ..."` for invalid
references and `"Error retrieving transcript: ..."` for fetch and
metadata failures; errors are returned as plain strings, never raised. -/
theorem c7_result_shape_amended (tp : TransProvider) (mp : MetaProvider)
    (url : String) (st : ServerState) :
    "Error".data.isPrefixOf (downloadTranscriptM tp mp url st).1.data = true ∨
    (∃ id, extract_video_id url = Except.ok id ∧
      cachedText st.cache id = some (downloadTranscriptM tp mp url st).1) ∨
    (∃ id segs vi, extract_video_id url = Except.ok id ∧ tp id = Except.ok segs ∧
      getVideoInfoM mp id = Except.ok vi ∧
      (downloadTranscriptM tp mp url st).1 = mkFull vi id segs) := by
  unfold downloadTranscriptM
  cases hext : extract_video_id url with
  | error msg =>
    left
    exact errPrefix1 msg
  | ok id =>
    cases hc : cachedText st.cache id with
    | some t =>
      right; left
      exact ⟨id, rfl, by simp [getTranscriptM, hc]⟩
    | none =>
      cases hsegs : tp id with
      | error e =>
        left
        simpa [getTranscriptM, hc, hsegs] using errPrefix2 e
      | ok segs =>
        cases hvi : getVideoInfoM mp id with
        | error e =>
          left
          simpa [getTranscriptM, hc, hsegs, hvi] using errPrefix2 e
        | ok vi =>
          right; right
          exact ⟨id, segs, vi, rfl, hsegs, hvi, by simp [getTranscriptM, hc, hsegs, hvi]⟩

/-- C4: for every non-negative fractional start offset the rendered
timestamp is `[MM:SS]` with `minutes = floor(start / 60)` and
`seconds = floor(start mod 60)` (where `start mod 60 = start -
60 * floor(start / 60)`), both zero-padded to two digits; in particular
`75.9 → [01:15]`, `0 → [00:00]`, `599.99 → [09:59]`. -/
theorem c4_timestamp :
    (∀ q : ℚ, 0 ≤ q →
      tsOf q = "[" ++ pad2 ⌊q / 60⌋ ++ ":" ++
        pad2 ⌊q - 60 * (⌊q / 60⌋ : ℚ)⌋ ++ "]") ∧
    tsOf (759/10) = "[01:15]" ∧ tsOf 0 = "[00:00]" ∧ tsOf (59999/100) = "[09:59]" := by
  refine ⟨?_, ?_, ?_, ?_⟩
  · intro q hq
    have hdiv : (0:ℚ) ≤ q / 60 := by positivity
    have hm : pyFloorDiv q 60 = ((⌊q / 60⌋ : Int) : ℚ) := rfl
    have hmin : pyTrunc (pyFloorDiv q 60) = ⌊q / 60⌋ := by
      rw [hm, pyTrunc, if_pos (Int.cast_nonneg.mpr (Int.floor_nonneg.mpr hdiv)),
        Int.floor_intCast]
    have hmodnn : (0:ℚ) ≤ pyMod q 60 := by
      rw [pyMod, hm]
      have h1 : ((⌊q / 60⌋ : Int) : ℚ) ≤ q / 60 := Int.floor_le _
      have h2 : (60:ℚ) * ((⌊q / 60⌋ : Int) : ℚ) ≤ 60 * (q / 60) :=
        mul_le_mul_of_nonneg_left h1 (by norm_num)
      have h3 : (60:ℚ) * (q / 60) = q := by field_simp
      linarith
    have hsec : pyTrunc (pyMod q 60) = ⌊q - 60 * (⌊q / 60⌋ : ℚ)⌋ := by
      rw [pyTrunc, if_pos hmodnn]
      rfl
    rw [tsOf, hmin, hsec]
  · norm_num [tsOf, pyFloorDiv, pyMod, pyTrunc, pad2]
    decide
  · norm_num [tsOf, pyFloorDiv, pyMod, pyTrunc, pad2]
    decide
  · norm_num [tsOf, pyFloorDiv, pyMod, pyTrunc, pad2]
    decide

/-- Witness for C4's universal part at the offset 75.9. -/
theorem c4_witness :
    (0:ℚ) ≤ 759/10 ∧
    tsOf (759/10) = "[" ++ pad2 ⌊(759/10 : ℚ) / 60⌋ ++ ":" ++
      pad2 ⌊(759/10 : ℚ) - 60 * (⌊(759/10 : ℚ) / 60⌋ : ℚ)⌋ ++ "]" :=
  ⟨by norm_num, c4_timestamp.1 (759/10) (by norm_num)⟩

/-- C2 counterexample: a record whose identifier ends in `_meta` (such
as the well-formed 11-character id `abcdef_meta`) is persisted to
`abcdef_meta.txt`, but rehydration skips every file ending in
`_meta.txt`, so the rehydrated cache is empty — no record with the
inserted text is reproduced. -/
theorem c2_counterexample :
    (cacheAdd ⟨"abcdef_meta", none, some "T"⟩ ⟨[], []⟩).disk
      = [("abcdef_meta.txt", .textC "T")] ∧
    loadFromDisk [("abcdef_meta.txt", .textC "T")] = Except.ok [] ∧
    assocGet ([] : Cache) "abcdef_meta" = none := by
  decide

/-- C2 amended: for every record with non-empty formatted text whose
identifier consists of id-characters (so contains no `.`) and does not
end in `_meta`, inserting it into the empty store and rehydrating from
the resulting directory reproduces a record with identical text under
the same identifier; if the metadata artifact is deleted, or corrupted
so that JSON parsing fails, before rehydration, the rehydrated record
has absent `VideoInfo` and unchanged text.  (Corruption into parsable
non-object JSON instead raises `AttributeError` and aborts the load.) -/
theorem c2_roundtrip_amended (id t : String) (vi : Option VideoInfo)
    (hchars : ∀ c ∈ id.data, isIdChar c = true)
    (hmeta : ¬ ("_meta".data <:+ id.data))
    (ht : t ≠ "") :
    (∃ c, loadFromDisk (cacheAdd ⟨id, vi, some t⟩ ⟨[], []⟩).disk = Except.ok c ∧
      ∃ r, assocGet c id = some r ∧ r.text = some t) ∧
    (∃ c, loadFromDisk (diskRemove (id ++ "_meta.json")
          (cacheAdd ⟨id, vi, some t⟩ ⟨[], []⟩).disk) = Except.ok c ∧
      assocGet c id = some ⟨id, none, some t⟩) ∧
    (∃ c, loadFromDisk (assocSet (cacheAdd ⟨id, vi, some t⟩ ⟨[], []⟩).disk
          (id ++ "_meta.json") .corruptC) = Except.ok c ∧
      assocGet c id = some ⟨id, none, some t⟩) := by
  have hdot : ∀ c ∈ id.data, c ≠ '.' :=
    fun c hc => idChar_ne (hchars c hc) (by decide)
  have hne : (id ++ ".txt") ≠ (id ++ "_meta.json") := Ne.symm (metaJson_ne_txt id)
  have hbeq : ((id ++ ".txt") == (id ++ "_meta.json")) = false :=
    beq_eq_false_iff_ne.mpr hne
  have hbeq2 : ((id ++ "_meta.json") == (id ++ "_meta.json")) = true := beq_self_eq_true _
  have hself : assocGet [(id, (⟨id, none, some t⟩ : TranscriptInfo))] id
      = some ⟨id, none, some t⟩ := by
    simp [assocGet, List.find?]
  -- rehydration of a directory holding just the text artifact
  have hload1 : loadFromDisk [(id ++ ".txt", FileContent.textC t)]
      = Except.ok [(id, ⟨id, none, some t⟩)] := by
    have hget : assocGet [(id ++ ".txt", FileContent.textC t)] (id ++ "_meta.json")
        = none := by
      simp [assocGet, List.find?, hbeq]
    unfold loadFromDisk
    rw [List.foldlM_cons, loadOne_txt _ _ _ _ hdot hmeta, hget]
    rfl
  -- rehydration of text artifact plus corrupt metadata artifact
  have hload2 : loadFromDisk [(id ++ ".txt", FileContent.textC t),
        (id ++ "_meta.json", FileContent.corruptC)]
      = Except.ok [(id, ⟨id, none, some t⟩)] := by
    have hget : assocGet [(id ++ ".txt", FileContent.textC t),
          (id ++ "_meta.json", FileContent.corruptC)] (id ++ "_meta.json")
        = some FileContent.corruptC := by
      simp [assocGet, List.find?, hbeq, hbeq2]
    unfold loadFromDisk
    rw [List.foldlM_cons, loadOne_txt_corrupt _ _ _ _ hdot hmeta hget, exceptBind_ok,
      List.foldlM_cons, loadOne_skip_metaJson]
    rfl
  cases vi with
  | none =>
    have hdisk : (cacheAdd ⟨id, none, some t⟩ ⟨[], []⟩).disk
        = [(id ++ ".txt", FileContent.textC t)] := by
      simp [cacheAdd, saveToDisk, ht, assocSet]
    have hrm : diskRemove (id ++ "_meta.json") [(id ++ ".txt", FileContent.textC t)]
        = [(id ++ ".txt", FileContent.textC t)] := by
      simp [diskRemove, hbeq]
    have hcor : assocSet [(id ++ ".txt", FileContent.textC t)] (id ++ "_meta.json")
          FileContent.corruptC
        = [(id ++ ".txt", FileContent.textC t),
           (id ++ "_meta.json", FileContent.corruptC)] := by
      simp [assocSet, hne]
    refine ⟨⟨_, by rw [hdisk, hload1], ⟨id, none, some t⟩, hself, rfl⟩,
      ⟨_, by rw [hdisk, hrm, hload1], hself⟩,
      ⟨_, by rw [hdisk, hcor, hload2], hself⟩⟩
  | some v =>
    have hdisk : (cacheAdd ⟨id, some v, some t⟩ ⟨[], []⟩).disk
        = [(id ++ ".txt", FileContent.textC t),
           (id ++ "_meta.json", FileContent.metaC (some v.title) (some v.channel))] := by
      simp [cacheAdd, saveToDisk, ht, assocSet, hne]
    have hrm : diskRemove (id ++ "_meta.json")
          [(id ++ ".txt", FileContent.textC t),
           (id ++ "_meta.json", FileContent.metaC (some v.title) (some v.channel))]
        = [(id ++ ".txt", FileContent.textC t)] := by
      simp [diskRemove, hbeq, hbeq2]
    have hcor : assocSet [(id ++ ".txt", FileContent.textC t),
            (id ++ "_meta.json", FileContent.metaC (some v.title) (some v.channel))]
          (id ++ "_meta.json") FileContent.corruptC
        = [(id ++ ".txt", FileContent.textC t),
           (id ++ "_meta.json", FileContent.corruptC)] := by
      simp [assocSet, hne]
    have hload3 : loadFromDisk [(id ++ ".txt", FileContent.textC t),
          (id ++ "_meta.json", FileContent.metaC (some v.title) (some v.channel))]
        = Except.ok [(id, ⟨id, some ⟨id, v.title, v.channel⟩, some t⟩)] := by
      have hget : assocGet [(id ++ ".txt", FileContent.textC t),
            (id ++ "_meta.json", FileContent.metaC (some v.title) (some v.channel))]
            (id ++ "_meta.json")
          = some (FileContent.metaC (some v.title) (some v.channel)) := by
        simp [assocGet, List.find?, hbeq, hbeq2]
      unfold loadFromDisk
      rw [List.foldlM_cons, loadOne_txt_meta _ _ _ _ _ _ hdot hmeta hget, exceptBind_ok,
        List.foldlM_cons, loadOne_skip_metaJson]
      rfl
    refine ⟨⟨_, by rw [hdisk, hload3], ⟨id, some ⟨id, v.title, v.channel⟩, some t⟩,
        by simp [assocGet, List.find?], rfl⟩,
      ⟨_, by rw [hdisk, hrm, hload1], hself⟩,
      ⟨_, by rw [hdisk, hcor, hload2], hself⟩⟩

/-- Witness for C2 at a concrete record with metadata. -/
theorem c2_witness :
    (∀ c ∈ ("dQw4w9WgXcQ" : String).data, isIdChar c = true) ∧
    ¬ ("_meta".data <:+ ("dQw4w9WgXcQ" : String).data) ∧
    (∃ c, loadFromDisk
        (cacheAdd ⟨"dQw4w9WgXcQ", some ⟨"dQw4w9WgXcQ", "T", "C"⟩, some "X"⟩
          ⟨[], []⟩).disk = Except.ok c ∧
      ∃ r, assocGet c "dQw4w9WgXcQ" = some r ∧ r.text = some "X") :=
  ⟨by decide, by decide,
    (c2_roundtrip_amended "dQw4w9WgXcQ" "X" (some ⟨"dQw4w9WgXcQ", "T", "C"⟩)
      (by decide) (by decide) (by decide)).1⟩

/-- C6: the extractor is a many-to-one normalization: every well-formed
11-character identifier is recovered identically from the short-link
form and from the standard watch-link form; any string matching none of
the recognized shapes (no `youtu.be` substring, no recognized main-site
host, not the bare-identifier pattern) fails with a `ValueError` — the
could-not-extract message when the URL parses, and the propagated
`urlparse` error (`Invalid IPv6 URL`) when it does not; and the three
scenario inputs behave as specified. -/
theorem c6_normalization :
    (∀ id : String, id.data.length = 11 → (∀ c ∈ id.data, isIdChar c = true) →
      extract_video_id ("https://youtu.be/" ++ id) = Except.ok id ∧
      extract_video_id ("https://www.youtube.com/watch?v=" ++ id) = Except.ok id) ∧
    (∀ url : String, containsSub "youtu.be".data url.data = false →
      matches11 url.data = false →
      (∀ pu, urlparseL url.data = Except.ok pu →
        ¬ (pu.netloc = "youtube.com".data ∨
           pu.netloc = "www.youtube.com".data ∨
           pu.netloc = "m.youtube.com".data) →
        extract_video_id url
          = Except.error ("Could not extract YouTube video ID from " ++ url)) ∧
      (∀ e, urlparseL url.data = Except.error e →
        extract_video_id url = Except.error e)) ∧
    extract_video_id "https://youtu.be/dQw4w9WgXcQ" = Except.ok "dQw4w9WgXcQ" ∧
    extract_video_id "https://www.youtube.com/watch?v=dQw4w9WgXcQ&t=30"
      = Except.ok "dQw4w9WgXcQ" ∧
    extract_video_id "not a url"
      = Except.error "Could not extract YouTube video ID from not a url" := by
  refine ⟨?_, ?_, by decide, by decide, by decide⟩
  · intro id hlen h
    have hne : id.data ≠ [] := by
      intro he
      rw [he] at hlen
      exact absurd hlen (by decide)
    exact ⟨extract_short h, extract_watch hne h⟩
  · intro url hshort hm
    exact ⟨fun pu hpu hhost => extract_no_shape hshort hpu hhost hm,
      fun e he => extract_parse_error hshort he⟩

/-- Witness for C6 at the scenario identifier and a rejected string. -/
theorem c6_witness :
    (extract_video_id ("https://youtu.be/" ++ "dQw4w9WgXcQ")
        = Except.ok "dQw4w9WgXcQ" ∧
      extract_video_id ("https://www.youtube.com/watch?v=" ++ "dQw4w9WgXcQ")
        = Except.ok "dQw4w9WgXcQ") ∧
    extract_video_id "xyz"
      = Except.error ("Could not extract YouTube video ID from " ++ "xyz") :=
  ⟨c6_normalization.1 "dQw4w9WgXcQ" (by decide) (by decide),
    (c6_normalization.2.1 "xyz" (by decide) (by decide)).1
      ⟨[], [], "xyz".data, [], [], []⟩ (by decide) (by decide)⟩


end YT
